import Mathlib

/-!
Shallow embedding of drivers/gpu/drm/ttm/ttm_execbuf_util.c.

The four C procedures are modelled as Lean functions over an explicit
state (`TtmState`): per-buffer reservation objects, the global LRU list
and the liveness of the caller's ww-acquire ticket.  Effects of other
threads (lock contention, wound-wait outcomes, allocation failures,
interrupted waits) are supplied by an explicit oracle consumed at each
external call; the restart loop of `ttm_eu_reserve_buffers` is made
total with fuel.
-/

namespace TtmEu

/-- A validate-list entry (`struct ttm_validate_buffer`): the buffer it
references (identified by a natural number) and the requested count of
shared completion-marker slots. -/
structure VB where
  bo : Nat
  num_shared : Nat
deriving DecidableEq

/-- Modelled from the spec: a resource reservation object
(`struct dma_resv` of a buffer object), an external collaborator of the
source file.  It carries the exclusive lock state (held by the current
batch or not), the count of pre-allocated shared completion-marker
slots, the exclusive completion marker and the list of shared
completion markers. -/
structure Resv where
  lockedSelf : Bool
  sharedSlots : Nat
  exclFence : Option Nat
  sharedFences : List Nat
deriving DecidableEq

/-- The mutable state the four procedures operate on: every buffer's
reservation object, the global LRU list (tail = most recently
released), and whether the caller's ticket is live
(`ww_acquire_init` .. `ww_acquire_fini`). -/
structure TtmState where
  resv : Nat → Resv
  lru : List Nat
  ticketLive : Bool

def setResv (b : Nat) (r : Resv) (st : TtmState) : TtmState :=
  { st with resv := fun x => if x = b then r else st.resv x }

/-- Modelled from the spec: acquiring a resource's exclusive lock for
the current batch (the success effect of `dma_resv_lock` and friends). -/
def lockBo (b : Nat) (st : TtmState) : TtmState :=
  setResv b { st.resv b with lockedSelf := true } st

/-- Modelled from the spec: `dma_resv_unlock` releases the resource's
exclusive lock. -/
def dma_resv_unlock (b : Nat) (st : TtmState) : TtmState :=
  setResv b { st.resv b with lockedSelf := false } st

/-- Modelled from the spec: the success effect of
`dma_resv_reserve_shared`, pre-allocating `n` shared marker slots. -/
def addSlots (b n : Nat) (st : TtmState) : TtmState :=
  setResv b { st.resv b with sharedSlots := (st.resv b).sharedSlots + n } st

/-- Modelled from the spec: `dma_resv_add_shared_fence` records the
marker as an additional shared completion marker. -/
def dma_resv_add_shared_fence (b f : Nat) (st : TtmState) : TtmState :=
  setResv b { st.resv b with sharedFences := (st.resv b).sharedFences ++ [f] } st

/-- Modelled from the spec: `dma_resv_add_excl_fence` sets the
exclusive completion marker. -/
def dma_resv_add_excl_fence (b f : Nat) (st : TtmState) : TtmState :=
  setResv b { st.resv b with exclFence := some f } st

/-- Modelled from the spec: `ttm_bo_move_to_lru_tail` moves the buffer
to the tail of the global LRU list. -/
def ttm_bo_move_to_lru_tail (b : Nat) (st : TtmState) : TtmState :=
  { st with lru := st.lru.erase b ++ [b] }

/-- Modelled from the spec: `ww_acquire_init` makes the ticket live. -/
def ww_acquire_init (st : TtmState) : TtmState := { st with ticketLive := true }

/-- Modelled from the spec: `ww_acquire_fini` invalidates the ticket. -/
def ww_acquire_fini (st : TtmState) : TtmState := { st with ticketLive := false }

/-- Environment outcome of one contended lock attempt
(`ww_mutex_lock` family, other threads decide). -/
inductive LockEv where
  | ok
  | wound
  | intr
deriving DecidableEq

/-- Environment outcome of one `dma_resv_reserve_shared` call. -/
inductive SlotEv where
  | ok
  | nomem
deriving DecidableEq

/-- Environment outcome of one `dma_resv_lock_slow_interruptible` call. -/
inductive SlowEv where
  | ok
  | intr
deriving DecidableEq

/-- Oracle of environment decisions, one stream per kind of external
call; an exhausted stream defaults to the cooperative outcome. -/
structure Oracle where
  locks : List LockEv
  slots : List SlotEv
  slows : List SlowEv
deriving DecidableEq

def popLock (o : Oracle) : LockEv × Oracle :=
  (o.locks.headD LockEv.ok, { o with locks := o.locks.tail })

def popSlot (o : Oracle) : SlotEv × Oracle :=
  (o.slots.headD SlotEv.ok, { o with slots := o.slots.tail })

def popSlow (o : Oracle) : SlowEv × Oracle :=
  (o.slows.headD SlowEv.ok, { o with slows := o.slows.tail })

/-- The error codes the source manipulates. -/
inductive Errno where
  | EALREADY
  | EDEADLK
  | EBUSY
  | EINTR
  | ERESTARTSYS
  | ENOMEM
deriving DecidableEq

/-- Embedding of `__ttm_bo_reserve(bo, intr, no_wait = (ticket == NULL), ticket)`:
with a ticket, a buffer already locked by this very ticket yields
`-EALREADY`; otherwise the environment decides between success, a
wound-wait back-off (`-EDEADLK`; `-EBUSY` for the ticketless trylock)
and, for an interruptible ticketed wait, `-EINTR`. -/
def ttm_bo_reserve (hasTicket intr : Bool) (b : Nat) (st : TtmState) (o : Oracle) :
    Option Errno × TtmState × Oracle :=
  if (st.resv b).lockedSelf then
    if hasTicket then (some Errno.EALREADY, st, o) else (some Errno.EBUSY, st, o)
  else
    match popLock o with
    | (LockEv.ok, o2) => (none, lockBo b st, o2)
    | (LockEv.wound, o2) =>
        if hasTicket then (some Errno.EDEADLK, st, o2) else (some Errno.EBUSY, st, o2)
    | (LockEv.intr, o2) =>
        if hasTicket && intr then (some Errno.EINTR, st, o2) else (none, lockBo b st, o2)

/-- Embedding of `dma_resv_reserve_shared(resv, num_shared)`: the
environment decides between successful slot pre-allocation and
`-ENOMEM`. -/
def dma_resv_reserve_shared (b n : Nat) (st : TtmState) (o : Oracle) :
    Option Errno × TtmState × Oracle :=
  match popSlot o with
  | (SlotEv.ok, o2) => (none, addSlots b n st, o2)
  | (SlotEv.nomem, o2) => (some Errno.ENOMEM, st, o2)

/-- Embedding of `dma_resv_lock_slow`: the uninterruptible slow-path
wait always acquires the lock. -/
def dma_resv_lock_slow (b : Nat) (st : TtmState) : TtmState := lockBo b st

/-- Embedding of `dma_resv_lock_slow_interruptible`: the slow-path wait
either acquires the lock or is interrupted by a signal (`-EINTR`). -/
def dma_resv_lock_slow_interruptible (b : Nat) (st : TtmState) (o : Oracle) :
    Option Errno × TtmState × Oracle :=
  match popSlow o with
  | (SlowEv.ok, o2) => (none, lockBo b st, o2)
  | (SlowEv.intr, o2) => (some Errno.EINTR, st, o2)

/-- Embedding of `ttm_eu_backoff_reservation_reverse(list, entry)`.
`list_for_each_entry_continue_reverse` visits exactly the entries
strictly before `entry`, in reverse list order; the function receives
that prefix (`preL`) and unlocks each visited buffer. -/
def ttm_eu_backoff_reservation_reverse (preL : List VB) (st : TtmState) : TtmState :=
  preL.reverse.foldl (fun s e => dma_resv_unlock e.bo s) st

/-- One iteration of the `ttm_eu_backoff_reservation` loop body:
move the buffer to the LRU tail, then unlock it. -/
def backoffStep (s : TtmState) (e : VB) : TtmState :=
  dma_resv_unlock e.bo (ttm_bo_move_to_lru_tail e.bo s)

/-- Embedding of `ttm_eu_backoff_reservation(ticket, list)`: empty list
returns immediately; otherwise every entry is moved to the LRU tail and
unlocked, in list order, and finally the ticket (if any) is
invalidated. -/
def ttm_eu_backoff_reservation (hasTicket : Bool) (l : List VB) (st : TtmState) : TtmState :=
  if l = [] then st
  else
    let st1 := l.foldl backoffStep st
    if hasTicket then ww_acquire_fini st1 else st1

/-- One iteration of the `ttm_eu_fence_buffer_objects` loop body:
attach the marker (shared when `num_shared` is nonzero, exclusive
otherwise), move the buffer to the LRU tail, then unlock it. -/
def fenceStep (f : Nat) (s : TtmState) (e : VB) : TtmState :=
  let s2 := if e.num_shared ≠ 0 then dma_resv_add_shared_fence e.bo f s
            else dma_resv_add_excl_fence e.bo f s
  dma_resv_unlock e.bo (ttm_bo_move_to_lru_tail e.bo s2)

/-- Embedding of `ttm_eu_fence_buffer_objects(ticket, list, fence)`:
empty list returns immediately; otherwise every entry gets the
completion marker attached, is moved to the LRU tail and unlocked, in
list order, and finally the ticket (if any) is invalidated. -/
def ttm_eu_fence_buffer_objects (hasTicket : Bool) (l : List VB) (f : Nat) (st : TtmState) :
    TtmState :=
  if l = [] then st
  else
    let st1 := l.foldl (fenceStep f) st
    if hasTicket then ww_acquire_fini st1 else st1

/-- Result of `ttm_eu_reserve_buffers`: success or an error code, each
with the final state, the final validate list and the final duplicates
list (`none` models a NULL `dups` argument); `fuelOut` marks fuel
exhaustion of the embedding only. -/
inductive RRes where
  | ok (st : TtmState) (l : List VB) (dups : Option (List VB))
  | err (e : Errno) (st : TtmState) (l : List VB) (dups : Option (List VB))
  | fuelOut

def emptyState : TtmState := ⟨fun _ => ⟨false, 0, none, []⟩, [], false⟩

def RRes.errno : RRes → Option Errno
  | RRes.ok _ _ _ => none
  | RRes.err e _ _ _ => some e
  | RRes.fuelOut => none

def RRes.isOk : RRes → Bool
  | RRes.ok _ _ _ => true
  | _ => false

def RRes.stateOut : RRes → TtmState
  | RRes.ok st _ _ => st
  | RRes.err _ st _ _ => st
  | RRes.fuelOut => emptyState

def RRes.listOut : RRes → List VB
  | RRes.ok _ l _ => l
  | RRes.err _ _ l _ => l
  | RRes.fuelOut => []

def RRes.dupsOut : RRes → Option (List VB)
  | RRes.ok _ _ d => d
  | RRes.err _ _ _ d => d
  | RRes.fuelOut => none

/-- Embedding of the failure tail of the scan loop of
`ttm_eu_reserve_buffers` (from the call to
`ttm_eu_backoff_reservation_reverse` up to, not including, the final
`ret != 0` test): roll back every previously acquired lock, take the
slow-path wait when the failure was `-EDEADLK`, re-attempt the shared
slot pre-allocation after a successful slow-path lock. -/
def reserveFailTail (intr : Bool) (done : List VB) (e : VB) (ret : Errno)
    (st : TtmState) (o : Oracle) : Option Errno × TtmState × Oracle :=
  let st1 := ttm_eu_backoff_reservation_reverse done st
  let step2 : Option Errno × TtmState × Oracle :=
    if ret = Errno.EDEADLK then
      if intr then dma_resv_lock_slow_interruptible e.bo st1 o
      else (none, dma_resv_lock_slow e.bo st1, o)
    else (some ret, st1, o)
  match step2 with
  | (none, st2, o2) =>
      if e.num_shared ≠ 0 then dma_resv_reserve_shared e.bo e.num_shared st2 o2
      else (none, st2, o2)
  | (some er, st2, o2) => (some er, st2, o2)

/-- Embedding of the recovery dispatch after the failure tail: on
remaining failure, map `-EINTR` to `-ERESTARTSYS`, tear down the ticket
and return the error with the current list; on slow-path success hand
the new state and oracle back to the loop (`Sum.inl`). -/
def reserveRecover (hasTicket intr : Bool) (done : List VB) (e : VB) (rest : List VB)
    (dups : Option (List VB)) (ret : Errno) (st : TtmState) (o : Oracle) :
    Sum (TtmState × Oracle) RRes :=
  match reserveFailTail intr done e ret st o with
  | (none, st2, o2) => Sum.inl (st2, o2)
  | (some er2, st2, _) =>
      Sum.inr (RRes.err (if er2 = Errno.EINTR then Errno.ERESTARTSYS else er2)
        (if hasTicket then ww_acquire_fini st2 else st2) (done ++ e :: rest) dups)

/-- Embedding of the scan loop of `ttm_eu_reserve_buffers`.  `done` is
the already-scanned prefix of the current validate list (all its
entries hold their locks), `todo` the rest (current entry first); the
current list is `done ++ todo`.  A duplicate (`-EALREADY` with a
duplicates list present) is removed from the list and prepended to the
duplicates list, the scan continuing with the next entry — the C
`list_prev_entry`/`continue` pair has exactly this effect.  A
successful slow-path re-acquisition moves the current entry to the
front of the list and rescans everything else (`done ++ rest`). -/
def reserveLoop (hasTicket intr : Bool) (fuel : Nat) (st : TtmState) (o : Oracle)
    (done todo : List VB) (dups : Option (List VB)) : RRes :=
  match fuel with
  | 0 => RRes.fuelOut
  | Nat.succ fuel =>
    match todo with
    | [] => RRes.ok st done dups
    | e :: rest =>
      match ttm_bo_reserve hasTicket intr e.bo st o with
      | (some Errno.EALREADY, st0, o0) =>
        match dups with
        | some d => reserveLoop hasTicket intr fuel st0 o0 done rest (some (e :: d))
        | none =>
          match reserveRecover hasTicket intr done e rest none Errno.EALREADY st0 o0 with
          | Sum.inl (st2, o2) => reserveLoop hasTicket intr fuel st2 o2 [e] (done ++ rest) none
          | Sum.inr r => r
      | (none, st0, o0) =>
        if e.num_shared = 0 then
          reserveLoop hasTicket intr fuel st0 o0 (done ++ [e]) rest dups
        else
          match dma_resv_reserve_shared e.bo e.num_shared st0 o0 with
          | (none, st1, o1) => reserveLoop hasTicket intr fuel st1 o1 (done ++ [e]) rest dups
          | (some er, st1, o1) =>
            match reserveRecover hasTicket intr done e rest dups er st1 o1 with
            | Sum.inl (st2, o2) => reserveLoop hasTicket intr fuel st2 o2 [e] (done ++ rest) dups
            | Sum.inr r => r
      | (some er, st0, o0) =>
        match reserveRecover hasTicket intr done e rest dups er st0 o0 with
        | Sum.inl (st2, o2) => reserveLoop hasTicket intr fuel st2 o2 [e] (done ++ rest) dups
        | Sum.inr r => r

/-- Embedding of `ttm_eu_reserve_buffers(ticket, list, intr, dups)`:
an empty list succeeds immediately (without initializing the ticket);
otherwise the ticket (if any) is initialized and the scan loop runs. -/
def ttm_eu_reserve_buffers (fuel : Nat) (hasTicket intr : Bool) (st : TtmState) (o : Oracle)
    (l : List VB) (dups : Option (List VB)) : RRes :=
  if l = [] then RRes.ok st l dups
  else reserveLoop hasTicket intr fuel (if hasTicket then ww_acquire_init st else st) o [] l dups

/-- The per-entry effect of `ttm_eu_fence_buffer_objects` on the
entry's own reservation object: attach the marker (shared when the
entry requested slots, exclusive otherwise) and drop the lock. -/
def fenceResvVal (f ns : Nat) (r : Resv) : Resv :=
  let r2 := if ns ≠ 0 then { r with sharedFences := r.sharedFences ++ [f] }
            else { r with exclFence := some f }
  { r2 with lockedSelf := false }

/-- All-unlocked initial state used by concrete runs. -/
def st0 : TtmState := ⟨fun _ => ⟨false, 0, none, []⟩, [], false⟩

/-- All-unlocked state with a live ticket. -/
def stLive : TtmState := ⟨fun _ => ⟨false, 0, none, []⟩, [], true⟩

/-- All-locked state with LRU list `[1, 2, 0]` and a live ticket. -/
def stW : TtmState := ⟨fun _ => ⟨true, 0, none, []⟩, [1, 2, 0], true⟩

/-- A reserve result never exposes the raw interrupted-wait code, and
on the cancelled outcome (`-ERESTARTSYS`) the final state holds no lock
and the ticket is dead. -/
@[reducible] def SafeRes (r : RRes) : Prop :=
  r.errno ≠ some Errno.EINTR ∧
  (r.errno = some Errno.ERESTARTSYS →
    (∀ b, ((r.stateOut).resv b).lockedSelf = false) ∧ (r.stateOut).ticketLive = false)

@[simp] theorem setResv_resv (b : Nat) (r : Resv) (st : TtmState) (x : Nat) :
    (setResv b r st).resv x = if x = b then r else st.resv x := rfl

@[simp] theorem setResv_lru (b : Nat) (r : Resv) (st : TtmState) :
    (setResv b r st).lru = st.lru := rfl

@[simp] theorem setResv_ticketLive (b : Nat) (r : Resv) (st : TtmState) :
    (setResv b r st).ticketLive = st.ticketLive := rfl

@[simp] theorem lockBo_resv (b : Nat) (st : TtmState) (x : Nat) :
    (lockBo b st).resv x = if x = b then { st.resv b with lockedSelf := true } else st.resv x := rfl

@[simp] theorem lockBo_lru (b : Nat) (st : TtmState) : (lockBo b st).lru = st.lru := rfl

@[simp] theorem lockBo_ticketLive (b : Nat) (st : TtmState) :
    (lockBo b st).ticketLive = st.ticketLive := rfl

@[simp] theorem unlock_resv (b : Nat) (st : TtmState) (x : Nat) :
    (dma_resv_unlock b st).resv x
      = if x = b then { st.resv b with lockedSelf := false } else st.resv x := rfl

@[simp] theorem unlock_lru (b : Nat) (st : TtmState) : (dma_resv_unlock b st).lru = st.lru := rfl

@[simp] theorem unlock_ticketLive (b : Nat) (st : TtmState) :
    (dma_resv_unlock b st).ticketLive = st.ticketLive := rfl

@[simp] theorem addSlots_resv (b n : Nat) (st : TtmState) (x : Nat) :
    (addSlots b n st).resv x
      = if x = b then { st.resv b with sharedSlots := (st.resv b).sharedSlots + n }
        else st.resv x := rfl

@[simp] theorem addSlots_lru (b n : Nat) (st : TtmState) : (addSlots b n st).lru = st.lru := rfl

@[simp] theorem addSlots_ticketLive (b n : Nat) (st : TtmState) :
    (addSlots b n st).ticketLive = st.ticketLive := rfl

@[simp] theorem fini_resv (st : TtmState) (x : Nat) :
    (ww_acquire_fini st).resv x = st.resv x := rfl

@[simp] theorem fini_lru (st : TtmState) : (ww_acquire_fini st).lru = st.lru := rfl

@[simp] theorem fini_ticketLive (st : TtmState) : (ww_acquire_fini st).ticketLive = false := rfl

@[simp] theorem init_resv (st : TtmState) (x : Nat) :
    (ww_acquire_init st).resv x = st.resv x := rfl

@[simp] theorem init_lru (st : TtmState) : (ww_acquire_init st).lru = st.lru := rfl

@[simp] theorem init_ticketLive (st : TtmState) : (ww_acquire_init st).ticketLive = true := rfl

@[simp] theorem errno_ok (st : TtmState) (l : List VB) (d : Option (List VB)) :
    (RRes.ok st l d).errno = none := rfl

@[simp] theorem errno_err (e : Errno) (st : TtmState) (l : List VB) (d : Option (List VB)) :
    (RRes.err e st l d).errno = some e := rfl

@[simp] theorem listOut_ok (st : TtmState) (l : List VB) (d : Option (List VB)) :
    (RRes.ok st l d).listOut = l := rfl

@[simp] theorem listOut_err (e : Errno) (st : TtmState) (l : List VB) (d : Option (List VB)) :
    (RRes.err e st l d).listOut = l := rfl

@[simp] theorem dupsOut_ok (st : TtmState) (l : List VB) (d : Option (List VB)) :
    (RRes.ok st l d).dupsOut = d := rfl

@[simp] theorem dupsOut_err (e : Errno) (st : TtmState) (l : List VB) (d : Option (List VB)) :
    (RRes.err e st l d).dupsOut = d := rfl

@[simp] theorem isOk_ok (st : TtmState) (l : List VB) (d : Option (List VB)) :
    (RRes.ok st l d).isOk = true := rfl

@[simp] theorem isOk_err (e : Errno) (st : TtmState) (l : List VB) (d : Option (List VB)) :
    (RRes.err e st l d).isOk = false := rfl

@[simp] theorem stateOut_ok (st : TtmState) (l : List VB) (d : Option (List VB)) :
    (RRes.ok st l d).stateOut = st := rfl

@[simp] theorem stateOut_err (e : Errno) (st : TtmState) (l : List VB) (d : Option (List VB)) :
    (RRes.err e st l d).stateOut = st := rfl

theorem reserveLoop_zero (ht i : Bool) (st : TtmState) (o : Oracle) (done todo : List VB)
    (d : Option (List VB)) : reserveLoop ht i 0 st o done todo d = RRes.fuelOut := rfl

theorem reserveLoop_nil (ht i : Bool) (fuel : Nat) (st : TtmState) (o : Oracle) (done : List VB)
    (d : Option (List VB)) : reserveLoop ht i (fuel + 1) st o done [] d = RRes.ok st done d := rfl

theorem reserve_buffers_cons (fuel : Nat) (ht i : Bool) (st : TtmState) (o : Oracle)
    (e : VB) (l : List VB) (d : Option (List VB)) :
    ttm_eu_reserve_buffers fuel ht i st o (e :: l) d
      = reserveLoop ht i fuel (if ht then ww_acquire_init st else st) o [] (e :: l) d := by
  simp [ttm_eu_reserve_buffers]

theorem unlockFold_resv (l : List VB) :
    ∀ (st : TtmState) (b : Nat),
    ((l.foldl (fun s e => dma_resv_unlock e.bo s) st).resv b)
      = if b ∈ l.map VB.bo then { st.resv b with lockedSelf := false } else st.resv b := by
  induction l with
  | nil => intro st b; simp
  | cons e t ih =>
    intro st b
    simp only [List.foldl_cons, ih, List.map_cons, List.mem_cons]
    by_cases hb : b = e.bo <;> by_cases hm : b ∈ t.map VB.bo <;> simp [hm, hb]

theorem unlockFold_lru (l : List VB) :
    ∀ (st : TtmState), (l.foldl (fun s e => dma_resv_unlock e.bo s) st).lru = st.lru := by
  induction l with
  | nil => intro st; rfl
  | cons e t ih => intro st; simp [List.foldl_cons, ih]

theorem unlockFold_ticketLive (l : List VB) :
    ∀ (st : TtmState),
    (l.foldl (fun s e => dma_resv_unlock e.bo s) st).ticketLive = st.ticketLive := by
  induction l with
  | nil => intro st; rfl
  | cons e t ih => intro st; simp [List.foldl_cons, ih]

theorem backoffRev_resv (preL : List VB) (st : TtmState) (b : Nat) :
    ((ttm_eu_backoff_reservation_reverse preL st).resv b)
      = if b ∈ preL.map VB.bo then { st.resv b with lockedSelf := false } else st.resv b := by
  unfold ttm_eu_backoff_reservation_reverse
  rw [unlockFold_resv]
  simp

theorem backoffRev_lru (preL : List VB) (st : TtmState) :
    (ttm_eu_backoff_reservation_reverse preL st).lru = st.lru := by
  unfold ttm_eu_backoff_reservation_reverse
  rw [unlockFold_lru]

theorem backoffRev_ticketLive (preL : List VB) (st : TtmState) :
    (ttm_eu_backoff_reservation_reverse preL st).ticketLive = st.ticketLive := by
  unfold ttm_eu_backoff_reservation_reverse
  rw [unlockFold_ticketLive]

theorem backoffRev_unlocks_all (done : List VB) (st : TtmState)
    (hinv : ∀ b, (st.resv b).lockedSelf = true → b ∈ done.map VB.bo) (b : Nat) :
    ((ttm_eu_backoff_reservation_reverse done st).resv b).lockedSelf = false := by
  rw [backoffRev_resv]
  by_cases hm : b ∈ done.map VB.bo
  · simp [hm]
  · simp only [hm, if_neg, if_false]
    cases h : (st.resv b).lockedSelf
    · rfl
    · exact absurd (hinv b h) hm

@[simp] theorem moveTail_resv (b : Nat) (st : TtmState) (x : Nat) :
    (ttm_bo_move_to_lru_tail b st).resv x = st.resv x := rfl

@[simp] theorem moveTail_lru (b : Nat) (st : TtmState) :
    (ttm_bo_move_to_lru_tail b st).lru = st.lru.erase b ++ [b] := rfl

@[simp] theorem moveTail_ticketLive (b : Nat) (st : TtmState) :
    (ttm_bo_move_to_lru_tail b st).ticketLive = st.ticketLive := rfl

@[simp] theorem addShared_resv (b f : Nat) (st : TtmState) (x : Nat) :
    (dma_resv_add_shared_fence b f st).resv x
      = if x = b then { st.resv b with sharedFences := (st.resv b).sharedFences ++ [f] }
        else st.resv x := rfl

@[simp] theorem addShared_lru (b f : Nat) (st : TtmState) :
    (dma_resv_add_shared_fence b f st).lru = st.lru := rfl

@[simp] theorem addExcl_resv (b f : Nat) (st : TtmState) (x : Nat) :
    (dma_resv_add_excl_fence b f st).resv x
      = if x = b then { st.resv b with exclFence := some f } else st.resv x := rfl

@[simp] theorem addExcl_lru (b f : Nat) (st : TtmState) :
    (dma_resv_add_excl_fence b f st).lru = st.lru := rfl

theorem erase_filter_of_nodup (b : Nat) :
    ∀ (l : List Nat), l.Nodup → l.erase b = l.filter (fun x => decide (x ≠ b)) := by
  intro l hl
  rw [hl.erase_eq_filter]
  refine List.filter_congr ?h
  intro x _
  by_cases h : x = b <;> simp [h]

theorem moveTail_fold (bos : List Nat) :
    ∀ (lru : List Nat), lru.Nodup → bos.Nodup →
    bos.foldl (fun ls b => ls.erase b ++ [b]) lru
      = lru.filter (fun x => decide (x ∉ bos)) ++ bos := by
  induction bos with
  | nil => intro lru _ _; simp
  | cons b bs ih =>
    intro lru h1 h2
    have hb : b ∉ bs := (List.nodup_cons.mp h2).1
    have hbs : bs.Nodup := (List.nodup_cons.mp h2).2
    have herase : (lru.erase b).Nodup := h1.erase b
    have hnotmem : b ∉ lru.erase b := by
      intro hmem
      exact absurd ((h1.mem_erase_iff.mp hmem).1) (by simp)
    have h1e : (lru.erase b ++ [b]).Nodup := by
      refine List.Nodup.append herase (List.nodup_singleton b) ?dj
      intro a ha
      simp only [List.mem_singleton]
      intro hab
      exact hnotmem (hab ▸ ha)
    simp only [List.foldl_cons]
    rw [ih (lru.erase b ++ [b]) h1e hbs]
    rw [List.filter_append]
    have hsing : [b].filter (fun x => decide (x ∉ bs)) = [b] := by simp [hb]
    rw [hsing]
    rw [erase_filter_of_nodup b lru h1, List.filter_filter]
    have hcong : lru.filter (fun a => decide (a ∉ bs) && decide (a ≠ b))
        = lru.filter (fun x => decide (x ∉ b :: bs)) := by
      refine List.filter_congr ?h
      intro x _
      rw [← Bool.decide_and, decide_eq_decide]
      simp only [List.mem_cons, not_or]
      tauto
    rw [hcong]
    simp

theorem backoffStep_lru (s : TtmState) (e : VB) :
    (backoffStep s e).lru = s.lru.erase e.bo ++ [e.bo] := rfl

theorem fenceStep_lru (f : Nat) (s : TtmState) (e : VB) :
    (fenceStep f s e).lru = s.lru.erase e.bo ++ [e.bo] := by
  unfold fenceStep
  by_cases h : e.num_shared ≠ 0 <;> simp [h]

theorem backoffFold_lru (l : List VB) : ∀ (st : TtmState),
    (l.foldl backoffStep st).lru
      = (l.map VB.bo).foldl (fun ls b => ls.erase b ++ [b]) st.lru := by
  induction l with
  | nil => intro st; rfl
  | cons e t ih =>
    intro st
    simp only [List.foldl_cons, List.map_cons, ih, backoffStep_lru]

theorem fenceFold_lru (f : Nat) (l : List VB) : ∀ (st : TtmState),
    (l.foldl (fenceStep f) st).lru
      = (l.map VB.bo).foldl (fun ls b => ls.erase b ++ [b]) st.lru := by
  induction l with
  | nil => intro st; rfl
  | cons e t ih =>
    intro st
    simp only [List.foldl_cons, List.map_cons, ih, fenceStep_lru]

theorem fenceStep_resv_self (f : Nat) (s : TtmState) (e : VB) :
    (fenceStep f s e).resv e.bo = fenceResvVal f e.num_shared (s.resv e.bo) := by
  unfold fenceStep fenceResvVal
  by_cases h : e.num_shared ≠ 0 <;> simp [h]

theorem fenceStep_resv_other (f : Nat) (s : TtmState) (e : VB) (x : Nat) (hx : x ≠ e.bo) :
    (fenceStep f s e).resv x = s.resv x := by
  unfold fenceStep
  by_cases h : e.num_shared ≠ 0 <;> simp [h, hx]

theorem fenceFold_frame (f : Nat) (l : List VB) : ∀ (st : TtmState) (x : Nat),
    x ∉ l.map VB.bo → ((l.foldl (fenceStep f) st).resv x) = st.resv x := by
  induction l with
  | nil => intro st x _; rfl
  | cons e t ih =>
    intro st x hx
    simp only [List.map_cons, List.mem_cons, not_or] at hx
    simp only [List.foldl_cons]
    rw [ih _ x hx.2, fenceStep_resv_other f st e x hx.1]

theorem fenceFold_resv_mem (f : Nat) (l : List VB) : ∀ (st : TtmState) (e : VB),
    (l.map VB.bo).Nodup → e ∈ l →
    ((l.foldl (fenceStep f) st).resv e.bo) = fenceResvVal f e.num_shared (st.resv e.bo) := by
  induction l with
  | nil => intro st e _ he; exact absurd he (List.not_mem_nil e)
  | cons a t ih =>
    intro st e hnd he
    simp only [List.map_cons, List.nodup_cons] at hnd
    rcases List.mem_cons.mp he with rfl | ht
    · simp only [List.foldl_cons]
      rw [fenceFold_frame f t _ e.bo hnd.1, fenceStep_resv_self]
    · have hne : a.bo ≠ e.bo := by
        intro h
        exact hnd.1 (h ▸ List.mem_map_of_mem VB.bo ht)
      simp only [List.foldl_cons]
      rw [ih _ e hnd.2 ht, fenceStep_resv_other f st a e.bo (Ne.symm hne)]

/-- Claim C4: for every entry of a validate list (with pairwise
distinct buffers), `ttm_eu_fence_buffer_objects` with the entry's
shared-slot count equal to 0 sets the buffer's exclusive completion
marker to the supplied marker, and with a nonzero count records the
marker as an additional shared completion marker while leaving the
exclusive marker unchanged. -/
theorem fence_marker_correct (ht : Bool) (l : List VB) (f : Nat) (st : TtmState) (e : VB)
    (hnd : (l.map VB.bo).Nodup) (he : e ∈ l) :
    (e.num_shared = 0 →
        ((ttm_eu_fence_buffer_objects ht l f st).resv e.bo).exclFence = some f) ∧
    (e.num_shared ≠ 0 →
        ((ttm_eu_fence_buffer_objects ht l f st).resv e.bo).sharedFences
            = (st.resv e.bo).sharedFences ++ [f]
          ∧ ((ttm_eu_fence_buffer_objects ht l f st).resv e.bo).exclFence
            = (st.resv e.bo).exclFence) := by
  have hne : l ≠ [] := List.ne_nil_of_mem he
  have hfold : (ttm_eu_fence_buffer_objects ht l f st).resv e.bo
      = (l.foldl (fenceStep f) st).resv e.bo := by
    unfold ttm_eu_fence_buffer_objects
    rw [if_neg hne]
    cases ht <;> simp
  rw [hfold, fenceFold_resv_mem f l st e hnd he]
  constructor
  · intro h0
    unfold fenceResvVal
    simp [h0]
  · intro hpos
    unfold fenceResvVal
    simp [hpos]

/-- Claim C3: after `ttm_eu_backoff_reservation` or
`ttm_eu_fence_buffer_objects` on a non-empty validate list of distinct
buffers, all of them sit at the tail of the LRU list, in the relative
order in which they appear in the validate list. -/
theorem backoff_fence_move_all_to_lru_tail (ht : Bool) (l : List VB) (f : Nat) (st : TtmState)
    (hne : l ≠ []) (hnd : (l.map VB.bo).Nodup) (hlru : st.lru.Nodup) :
    (ttm_eu_backoff_reservation ht l st).lru
        = st.lru.filter (fun x => decide (x ∉ l.map VB.bo)) ++ l.map VB.bo ∧
    (ttm_eu_fence_buffer_objects ht l f st).lru
        = st.lru.filter (fun x => decide (x ∉ l.map VB.bo)) ++ l.map VB.bo := by
  constructor
  · have hb : (ttm_eu_backoff_reservation ht l st).lru = (l.foldl backoffStep st).lru := by
      unfold ttm_eu_backoff_reservation
      rw [if_neg hne]
      cases ht <;> simp
    rw [hb, backoffFold_lru, moveTail_fold _ _ hlru hnd]
  · have hb : (ttm_eu_fence_buffer_objects ht l f st).lru = (l.foldl (fenceStep f) st).lru := by
      unfold ttm_eu_fence_buffer_objects
      rw [if_neg hne]
      cases ht <;> simp
    rw [hb, fenceFold_lru, moveTail_fold _ _ hlru hnd]

/-- Claim C5: the partial rollback `ttm_eu_backoff_reservation_reverse`
unlocks exactly the entries strictly preceding the current entry
(everything else, the current entry's buffer included, keeps its
reservation object unchanged) and touches neither the LRU list nor the
ticket. -/
theorem backoff_reverse_unlocks_exactly_preceding (preL : List VB) (cur : VB) (st : TtmState)
    (hcur : cur.bo ∉ preL.map VB.bo) :
    (∀ b, b ∈ preL.map VB.bo →
        ((ttm_eu_backoff_reservation_reverse preL st).resv b).lockedSelf = false) ∧
    (∀ b, b ∉ preL.map VB.bo →
        (ttm_eu_backoff_reservation_reverse preL st).resv b = st.resv b) ∧
    (ttm_eu_backoff_reservation_reverse preL st).resv cur.bo = st.resv cur.bo ∧
    (ttm_eu_backoff_reservation_reverse preL st).lru = st.lru ∧
    (ttm_eu_backoff_reservation_reverse preL st).ticketLive = st.ticketLive := by
  refine ⟨?a, ?b, ?c, backoffRev_lru preL st, backoffRev_ticketLive preL st⟩
  · intro b hm
    rw [backoffRev_resv]
    simp [hm]
  · intro b hm
    rw [backoffRev_resv]
    simp [hm]
  · rw [backoffRev_resv]
    simp [hcur]

/-- Witness for C3 at a concrete input. -/
theorem backoff_fence_move_all_to_lru_tail_witness :
    (ttm_eu_backoff_reservation true [VB.mk 0 0, VB.mk 1 2] stW).lru = [2, 0, 1] ∧
    (ttm_eu_fence_buffer_objects true [VB.mk 0 0, VB.mk 1 2] 7 stW).lru = [2, 0, 1] := by
  have h := backoff_fence_move_all_to_lru_tail true [VB.mk 0 0, VB.mk 1 2] 7 stW
    (by decide) (by decide) (by decide)
  constructor
  · rw [h.1]; decide
  · rw [h.2]; decide

/-- Witness for C4 at a concrete input. -/
theorem fence_marker_correct_witness :
    ((ttm_eu_fence_buffer_objects true [VB.mk 0 0, VB.mk 1 2] 7 stW).resv 1).sharedFences = [7] ∧
    ((ttm_eu_fence_buffer_objects true [VB.mk 0 0, VB.mk 1 2] 7 stW).resv 1).exclFence = none ∧
    ((ttm_eu_fence_buffer_objects true [VB.mk 0 0, VB.mk 1 2] 7 stW).resv 0).exclFence = some 7 := by
  have h1 := fence_marker_correct true [VB.mk 0 0, VB.mk 1 2] 7 stW (VB.mk 1 2)
    (by decide) (by decide)
  have h0 := fence_marker_correct true [VB.mk 0 0, VB.mk 1 2] 7 stW (VB.mk 0 0)
    (by decide) (by decide)
  refine ⟨?s, ?x, ?e⟩
  · have h := (h1.2 (by decide)).1
    simpa [stW] using h
  · have h := (h1.2 (by decide)).2
    simpa [stW] using h
  · have h := h0.1 (by decide)
    simpa using h

/-- Witness for C5 at a concrete input. -/
theorem backoff_reverse_unlocks_exactly_preceding_witness :
    ((ttm_eu_backoff_reservation_reverse [VB.mk 0 0] stW).resv 0).lockedSelf = false ∧
    (ttm_eu_backoff_reservation_reverse [VB.mk 0 0] stW).resv 1 = stW.resv 1 ∧
    (ttm_eu_backoff_reservation_reverse [VB.mk 0 0] stW).lru = stW.lru := by
  have h := backoff_reverse_unlocks_exactly_preceding [VB.mk 0 0] (VB.mk 1 0) stW (by decide)
  exact ⟨h.1 0 (by decide), h.2.2.1, h.2.2.2.1⟩

theorem reserve_buffers_cons_ticket (fuel : Nat) (i : Bool) (st : TtmState) (o : Oracle)
    (e : VB) (l : List VB) (d : Option (List VB)) :
    ttm_eu_reserve_buffers fuel true i st o (e :: l) d
      = reserveLoop true i fuel (ww_acquire_init st) o [] (e :: l) d := by
  simp [ttm_eu_reserve_buffers]

theorem reserveLoop_succ (ht i : Bool) (fuel : Nat) (st : TtmState) (o : Oracle)
    (done : List VB) (e : VB) (rest : List VB) (d : Option (List VB)) :
    reserveLoop ht i (fuel + 1) st o done (e :: rest) d
      = match ttm_bo_reserve ht i e.bo st o with
        | (some Errno.EALREADY, st0, o0) =>
          match d with
          | some dd => reserveLoop ht i fuel st0 o0 done rest (some (e :: dd))
          | none =>
            match reserveRecover ht i done e rest none Errno.EALREADY st0 o0 with
            | Sum.inl (st2, o2) => reserveLoop ht i fuel st2 o2 [e] (done ++ rest) none
            | Sum.inr r => r
        | (none, st0, o0) =>
          if e.num_shared = 0 then reserveLoop ht i fuel st0 o0 (done ++ [e]) rest d
          else
            match dma_resv_reserve_shared e.bo e.num_shared st0 o0 with
            | (none, st1, o1) => reserveLoop ht i fuel st1 o1 (done ++ [e]) rest d
            | (some er, st1, o1) =>
              match reserveRecover ht i done e rest d er st1 o1 with
              | Sum.inl (st2, o2) => reserveLoop ht i fuel st2 o2 [e] (done ++ rest) d
              | Sum.inr r => r
        | (some er, st0, o0) =>
          match reserveRecover ht i done e rest d er st0 o0 with
          | Sum.inl (st2, o2) => reserveLoop ht i fuel st2 o2 [e] (done ++ rest) d
          | Sum.inr r => r := rfl

theorem ttm_bo_reserve_already (i : Bool) (b : Nat) (st : TtmState) (o : Oracle)
    (hL : (st.resv b).lockedSelf = true) :
    ttm_bo_reserve true i b st o = (some Errno.EALREADY, st, o) := by
  unfold ttm_bo_reserve
  rw [hL]
  simp

theorem ttm_bo_reserve_free (ht i : Bool) (b : Nat) (st : TtmState) (o : Oracle)
    (hL : (st.resv b).lockedSelf = false) (hev : o.locks.headD LockEv.ok = LockEv.ok) :
    ttm_bo_reserve ht i b st o = (none, lockBo b st, { o with locks := o.locks.tail }) := by
  unfold ttm_bo_reserve
  rw [hL]
  have hp : popLock o = (LockEv.ok, { o with locks := o.locks.tail }) := by
    unfold popLock
    rw [hev]
  rw [hp]
  simp

theorem ttm_bo_reserve_wound (i : Bool) (b : Nat) (st : TtmState) (o : Oracle)
    (hL : (st.resv b).lockedSelf = false) (hev : o.locks.headD LockEv.ok = LockEv.wound) :
    ttm_bo_reserve true i b st o = (some Errno.EDEADLK, st, { o with locks := o.locks.tail }) := by
  unfold ttm_bo_reserve
  rw [hL]
  have hp : popLock o = (LockEv.wound, { o with locks := o.locks.tail }) := by
    unfold popLock
    rw [hev]
  rw [hp]
  simp

theorem ttm_bo_reserve_intr (b : Nat) (st : TtmState) (o : Oracle)
    (hL : (st.resv b).lockedSelf = false) (hev : o.locks.headD LockEv.ok = LockEv.intr) :
    ttm_bo_reserve true true b st o = (some Errno.EINTR, st, { o with locks := o.locks.tail }) := by
  unfold ttm_bo_reserve
  rw [hL]
  have hp : popLock o = (LockEv.intr, { o with locks := o.locks.tail }) := by
    unfold popLock
    rw [hev]
  rw [hp]
  simp

theorem reserveRecover_terminal (ht i : Bool) (done : List VB) (e : VB) (rest : List VB)
    (d : Option (List VB)) (ret : Errno) (st : TtmState) (o : Oracle)
    (hne : ret ≠ Errno.EDEADLK) :
    reserveRecover ht i done e rest d ret st o
      = Sum.inr (RRes.err (if ret = Errno.EINTR then Errno.ERESTARTSYS else ret)
          (if ht then ww_acquire_fini (ttm_eu_backoff_reservation_reverse done st)
           else ttm_eu_backoff_reservation_reverse done st) (done ++ e :: rest) d) := by
  unfold reserveRecover reserveFailTail
  simp [hne]

/-- Claim C1 (evaluation at the failing inputs): when the shared-slot
pre-allocation fails after the entry's own lock already succeeded (fast
path, first pair of conjuncts) or after a successful slow-path
re-acquisition (second pair), `ttm_eu_reserve_buffers` reports the
error while the current entry's buffer is still locked by the ticket —
the batch is left partially locked, contradicting the claimed
atomicity. -/
theorem reserve_alloc_fail_leaves_entry_locked :
    (ttm_eu_reserve_buffers 3 true false st0 ⟨[], [SlotEv.nomem], []⟩ [VB.mk 0 1] none).errno
        = some Errno.ENOMEM ∧
    (((ttm_eu_reserve_buffers 3 true false st0 ⟨[], [SlotEv.nomem], []⟩
        [VB.mk 0 1] none).stateOut).resv 0).lockedSelf = true ∧
    (ttm_eu_reserve_buffers 3 true true st0 ⟨[LockEv.wound], [SlotEv.nomem], [SlowEv.ok]⟩
        [VB.mk 0 1] none).errno = some Errno.ENOMEM ∧
    (((ttm_eu_reserve_buffers 3 true true st0 ⟨[LockEv.wound], [SlotEv.nomem], [SlowEv.ok]⟩
        [VB.mk 0 1] none).stateOut).resv 0).lockedSelf = true :=
  ⟨by decide, by decide, by decide, by decide⟩

/-- Counterexample to claim C8 as stated: on an empty validate list
with a ticket supplied, neither `ttm_eu_backoff_reservation` nor
`ttm_eu_fence_buffer_objects` invalidates the ticket — both return
before reaching `ww_acquire_fini`. -/
theorem backoff_fence_empty_list_keeps_ticket :
    stLive.ticketLive = true ∧
    (ttm_eu_backoff_reservation true [] stLive).ticketLive = true ∧
    (ttm_eu_fence_buffer_objects true [] 7 stLive).ticketLive = true :=
  ⟨rfl, rfl, rfl⟩

/-- Claim C8 (amended): on a non-empty validate list,
`ttm_eu_backoff_reservation` and `ttm_eu_fence_buffer_objects`
invalidate a supplied ticket as their final step; on an empty list both
are complete no-ops that leave the whole state, the ticket included,
untouched. -/
theorem backoff_fence_ticket_fini (l : List VB) (hne : l ≠ []) (f : Nat) (st : TtmState) :
    (ttm_eu_backoff_reservation true l st).ticketLive = false ∧
    (ttm_eu_fence_buffer_objects true l f st).ticketLive = false ∧
    ttm_eu_backoff_reservation true [] st = st ∧
    ttm_eu_fence_buffer_objects true [] f st = st := by
  refine ⟨?b, ?f, rfl, rfl⟩
  · unfold ttm_eu_backoff_reservation
    rw [if_neg hne]
    simp
  · unfold ttm_eu_fence_buffer_objects
    rw [if_neg hne]
    simp

/-- Witness for the amended C8 at a concrete input. -/
theorem backoff_fence_ticket_fini_witness :
    (ttm_eu_backoff_reservation true [VB.mk 0 0] stLive).ticketLive = false ∧
    (ttm_eu_fence_buffer_objects true [VB.mk 0 0] 7 stLive).ticketLive = false :=
  ⟨(backoff_fence_ticket_fini [VB.mk 0 0] (by decide) 7 stLive).1,
   (backoff_fence_ticket_fini [VB.mk 0 0] (by decide) 7 stLive).2.1⟩

/-- Counterexample to claim C2 as stated: duplicates are PREPENDED to
the duplicates list (`list_add`, head insertion), not appended — on a
validate list with two distinct duplicated buffers the duplicates
output is in reverse order of removal. -/
theorem reserve_dups_prepended_counterexample :
    (ttm_eu_reserve_buffers 9 true false st0 ⟨[], [], []⟩
        [VB.mk 0 0, VB.mk 0 0, VB.mk 1 0, VB.mk 1 0] (some [])).dupsOut
      = some [VB.mk 1 0, VB.mk 0 0] ∧
    ¬ (ttm_eu_reserve_buffers 9 true false st0 ⟨[], [], []⟩
        [VB.mk 0 0, VB.mk 0 0, VB.mk 1 0, VB.mk 1 0] (some [])).dupsOut
      = some [VB.mk 0 0, VB.mk 1 0] :=
  ⟨by decide, by decide⟩

/-- Claim C2 (amended): reserving a validate list that contains the
same buffer twice under one ticket, with a duplicates list supplied,
succeeds, removes the second occurrence from the validate list and
prepends it at the head of the duplicates list, leaves the buffer
locked by the ticket, and continues the scan with the entry after the
removed one, so no remaining entry is skipped. -/
theorem reserve_duplicate_moved_to_dups (i : Bool) (st : TtmState) (e1 e2 e3 : VB)
    (d0 : List VB)
    (h12 : e2.bo = e1.bo) (h13 : e3.bo ≠ e1.bo)
    (hs1 : e1.num_shared = 0) (hs3 : e3.num_shared = 0)
    (hu1 : (st.resv e1.bo).lockedSelf = false) (hu3 : (st.resv e3.bo).lockedSelf = false) :
    (ttm_eu_reserve_buffers 4 true i st ⟨[], [], []⟩ [e1, e2, e3] (some d0)).isOk = true ∧
    (ttm_eu_reserve_buffers 4 true i st ⟨[], [], []⟩ [e1, e2, e3] (some d0)).listOut
        = [e1, e3] ∧
    (ttm_eu_reserve_buffers 4 true i st ⟨[], [], []⟩ [e1, e2, e3] (some d0)).dupsOut
        = some (e2 :: d0) ∧
    (((ttm_eu_reserve_buffers 4 true i st ⟨[], [], []⟩
        [e1, e2, e3] (some d0)).stateOut).resv e1.bo).lockedSelf = true ∧
    (((ttm_eu_reserve_buffers 4 true i st ⟨[], [], []⟩
        [e1, e2, e3] (some d0)).stateOut).resv e3.bo).lockedSelf = true := by
  have hne13 : e1.bo ≠ e3.bo := fun h => h13 h.symm
  rw [reserve_buffers_cons_ticket]
  rw [show (4 : Nat) = 3 + 1 from rfl, reserveLoop_succ]
  rw [ttm_bo_reserve_free true i e1.bo (ww_acquire_init st) ⟨[], [], []⟩ (by simpa using hu1)
    (by rfl)]
  dsimp only
  rw [if_pos hs1]
  rw [show (3 : Nat) = 2 + 1 from rfl, reserveLoop_succ]
  rw [ttm_bo_reserve_already i e2.bo _ _ (by simp [h12])]
  dsimp only
  rw [show (2 : Nat) = 1 + 1 from rfl, reserveLoop_succ]
  rw [ttm_bo_reserve_free true i e3.bo _ _ (by simp [h13, hu3]) (by rfl)]
  dsimp only
  rw [if_pos hs3]
  rw [reserveLoop_nil]
  refine ⟨rfl, rfl, rfl, ?l1, ?l3⟩
  · simp [RRes.stateOut, hne13]
  · simp [RRes.stateOut]

/-- Witness for the amended C2 at a concrete input. -/
theorem reserve_duplicate_moved_to_dups_witness :
    (ttm_eu_reserve_buffers 4 true false st0 ⟨[], [], []⟩
        [VB.mk 0 0, VB.mk 0 5, VB.mk 1 0] (some [])).isOk = true ∧
    (ttm_eu_reserve_buffers 4 true false st0 ⟨[], [], []⟩
        [VB.mk 0 0, VB.mk 0 5, VB.mk 1 0] (some [])).listOut = [VB.mk 0 0, VB.mk 1 0] ∧
    (ttm_eu_reserve_buffers 4 true false st0 ⟨[], [], []⟩
        [VB.mk 0 0, VB.mk 0 5, VB.mk 1 0] (some [])).dupsOut = some [VB.mk 0 5] := by
  have h := reserve_duplicate_moved_to_dups false st0 (VB.mk 0 0) (VB.mk 0 5) (VB.mk 1 0) []
    (by decide) (by decide) (by decide) (by decide) (by decide) (by decide)
  exact ⟨h.1, h.2.1, h.2.2.1⟩

/-- Claim C9: with a NULL duplicates list, an entry whose buffer is
already locked by the same ticket is a terminal failure: `-EALREADY` is
surfaced to the caller, the lock acquired for the earlier occurrence is
released, every other reservation object is untouched, and the ticket
is finalized before returning. -/
theorem reserve_already_terminal_without_dups (i : Bool) (st : TtmState) (e1 e2 : VB)
    (h12 : e2.bo = e1.bo) (hs1 : e1.num_shared = 0)
    (hu1 : (st.resv e1.bo).lockedSelf = false) :
    (ttm_eu_reserve_buffers 3 true i st ⟨[], [], []⟩ [e1, e2] none).errno
        = some Errno.EALREADY ∧
    (((ttm_eu_reserve_buffers 3 true i st ⟨[], [], []⟩ [e1, e2] none).stateOut).resv
        e1.bo).lockedSelf = false ∧
    ((ttm_eu_reserve_buffers 3 true i st ⟨[], [], []⟩ [e1, e2] none).stateOut).ticketLive
        = false ∧
    (∀ b, b ≠ e1.bo →
        ((ttm_eu_reserve_buffers 3 true i st ⟨[], [], []⟩ [e1, e2] none).stateOut).resv b
          = st.resv b) ∧
    (ttm_eu_reserve_buffers 3 true i st ⟨[], [], []⟩ [e1, e2] none).listOut = [e1, e2] := by
  rw [reserve_buffers_cons_ticket]
  rw [show (3 : Nat) = 2 + 1 from rfl, reserveLoop_succ]
  rw [ttm_bo_reserve_free true i e1.bo (ww_acquire_init st) ⟨[], [], []⟩ (by simpa using hu1)
    (by rfl)]
  dsimp only
  rw [if_pos hs1]
  rw [show (2 : Nat) = 1 + 1 from rfl, reserveLoop_succ]
  rw [ttm_bo_reserve_already i e2.bo _ _ (by simp [h12])]
  dsimp only
  have hrec : reserveRecover true i ([] ++ [e1]) e2 [] none Errno.EALREADY
      (lockBo e1.bo (ww_acquire_init st)) ⟨[], [], []⟩
      = Sum.inr (RRes.err Errno.EALREADY
          (ww_acquire_fini (ttm_eu_backoff_reservation_reverse ([] ++ [e1])
            (lockBo e1.bo (ww_acquire_init st)))) (([] ++ [e1]) ++ e2 :: []) none) := by
    rw [reserveRecover_terminal _ _ _ _ _ _ _ _ _ (by decide)]
    simp
  simp only [List.tail_nil]
  rw [hrec]
  dsimp only
  refine ⟨rfl, ?u, rfl, ?f, rfl⟩
  · rw [stateOut_err, fini_resv, backoffRev_resv]
    simp
  · intro b hb
    rw [stateOut_err, fini_resv, backoffRev_resv]
    simp [hb]

/-- Witness for C9 at a concrete input. -/
theorem reserve_already_terminal_without_dups_witness :
    (ttm_eu_reserve_buffers 3 true false st0 ⟨[], [], []⟩ [VB.mk 0 0, VB.mk 0 7] none).errno
        = some Errno.EALREADY ∧
    (((ttm_eu_reserve_buffers 3 true false st0 ⟨[], [], []⟩
        [VB.mk 0 0, VB.mk 0 7] none).stateOut).resv 0).lockedSelf = false ∧
    ((ttm_eu_reserve_buffers 3 true false st0 ⟨[], [], []⟩
        [VB.mk 0 0, VB.mk 0 7] none).stateOut).ticketLive = false := by
  have h := reserve_already_terminal_without_dups false st0 (VB.mk 0 0) (VB.mk 0 7)
    (by decide) (by decide) (by decide)
  exact ⟨h.1, h.2.1, h.2.2.1⟩

/-- Claim C7: after a successful slow-path re-acquisition the current
entry is moved to the front of the validate list and the scan continues
forward from it over every remaining entry (`done ++ rest`), the entry
holding its lock; and an entry whose buffer this ticket already holds
is, with a duplicates list supplied, a pure no-op for the state: it
moves to the duplicates list and scanning continues, never blocking
again. -/
theorem reserve_slow_success_moves_to_front (fuel : Nat) (st : TtmState) (o : Oracle)
    (done : List VB) (e : VB) (rest : List VB) (dups : Option (List VB))
    (hL : (st.resv e.bo).lockedSelf = false)
    (hev : o.locks.headD LockEv.ok = LockEv.wound)
    (hsh : e.num_shared = 0) :
    reserveLoop true false (fuel + 1) st o done (e :: rest) dups
      = reserveLoop true false fuel
          (dma_resv_lock_slow e.bo (ttm_eu_backoff_reservation_reverse done st))
          { o with locks := o.locks.tail } [e] (done ++ rest) dups ∧
    ((dma_resv_lock_slow e.bo (ttm_eu_backoff_reservation_reverse done st)).resv
        e.bo).lockedSelf = true ∧
    (∀ (st3 : TtmState) (o3 : Oracle) (done3 rest3 : List VB) (d3 : List VB) (n : Nat),
        (st3.resv e.bo).lockedSelf = true →
        reserveLoop true false (n + 1) st3 o3 done3 (e :: rest3) (some d3)
          = reserveLoop true false n st3 o3 done3 rest3 (some (e :: d3))) := by
  refine ⟨?main, by simp [dma_resv_lock_slow], ?dup⟩
  · rw [reserveLoop_succ]
    rw [ttm_bo_reserve_wound false e.bo st o hL hev]
    have hrec : reserveRecover true false done e rest dups Errno.EDEADLK st
        { o with locks := o.locks.tail }
        = Sum.inl (dma_resv_lock_slow e.bo (ttm_eu_backoff_reservation_reverse done st),
            { o with locks := o.locks.tail }) := by
      unfold reserveRecover reserveFailTail
      simp [hsh]
    dsimp only
    rw [hrec]
  · intro st3 o3 done3 rest3 d3 n h3
    rw [reserveLoop_succ]
    rw [ttm_bo_reserve_already false e.bo st3 o3 h3]

/-- Witness for C7 at a concrete input. -/
theorem reserve_slow_success_moves_to_front_witness :
    reserveLoop true false 2 st0 ⟨[LockEv.wound], [], []⟩ [] [VB.mk 0 0] none
      = reserveLoop true false 1
          (dma_resv_lock_slow 0 (ttm_eu_backoff_reservation_reverse [] st0))
          ⟨[], [], []⟩ [VB.mk 0 0] [] none ∧
    ((dma_resv_lock_slow 0 (ttm_eu_backoff_reservation_reverse [] st0)).resv 0).lockedSelf
      = true := by
  have h := reserve_slow_success_moves_to_front 1 st0 ⟨[LockEv.wound], [], []⟩ [] (VB.mk 0 0)
    [] none (by decide) (by decide) (by decide)
  exact ⟨h.1, h.2.1⟩

theorem reserveLoop_clean (ht i : Bool) (todo : List VB) :
    ∀ (fuel : Nat) (st : TtmState) (done : List VB) (dups : Option (List VB)),
    (todo.map VB.bo).Nodup →
    (∀ b, b ∈ todo.map VB.bo → (st.resv b).lockedSelf = false) →
    todo.length < fuel →
    (reserveLoop ht i fuel st ⟨[], [], []⟩ done todo dups).isOk = true ∧
    (reserveLoop ht i fuel st ⟨[], [], []⟩ done todo dups).listOut = done ++ todo ∧
    (reserveLoop ht i fuel st ⟨[], [], []⟩ done todo dups).dupsOut = dups := by
  induction todo with
  | nil =>
    intro fuel st done dups _ _ hf
    cases fuel with
    | zero => exact absurd hf (by omega)
    | succ n =>
      rw [reserveLoop_nil]
      exact ⟨rfl, by simp, rfl⟩
  | cons e t ih =>
    intro fuel st done dups hnd hun hf
    cases fuel with
    | zero => exact absurd hf (by omega)
    | succ n =>
      rw [reserveLoop_succ]
      rw [ttm_bo_reserve_free ht i e.bo st ⟨[], [], []⟩ (hun e.bo (by simp)) (by rfl)]
      dsimp only
      simp only [List.tail_nil]
      have hhead : e.bo ∉ t.map VB.bo := by
        simp only [List.map_cons, List.nodup_cons] at hnd
        exact hnd.1
      have hnd2 : (t.map VB.bo).Nodup := by
        simp only [List.map_cons, List.nodup_cons] at hnd
        exact hnd.2
      have hun2 : ∀ b, b ∈ t.map VB.bo → ((lockBo e.bo st).resv b).lockedSelf = false := by
        intro b hb
        have hbe : b ≠ e.bo := fun h => hhead (h ▸ hb)
        rw [lockBo_resv, if_neg hbe]
        exact hun b (by simp [hb])
      have hlen : t.length < n := by
        simp only [List.length_cons] at hf
        omega
      by_cases hsh : e.num_shared = 0
      · rw [if_pos hsh]
        have h := ih n (lockBo e.bo st) (done ++ [e]) dups hnd2 hun2 hlen
        refine ⟨h.1, ?l, h.2.2⟩
        rw [h.2.1]
        simp
      · rw [if_neg hsh]
        have hres : dma_resv_reserve_shared e.bo e.num_shared (lockBo e.bo st) ⟨[], [], []⟩
            = (none, addSlots e.bo e.num_shared (lockBo e.bo st), ⟨[], [], []⟩) := rfl
        rw [hres]
        dsimp only
        have hun3 : ∀ b, b ∈ t.map VB.bo →
            ((addSlots e.bo e.num_shared (lockBo e.bo st)).resv b).lockedSelf = false := by
          intro b hb
          have hbe : b ≠ e.bo := fun h => hhead (h ▸ hb)
          rw [addSlots_resv, if_neg hbe]
          exact hun2 b hb
        have h := ih n (addSlots e.bo e.num_shared (lockBo e.bo st)) (done ++ [e]) dups
          hnd2 hun3 hlen
        refine ⟨h.1, ?l2, h.2.2⟩
        rw [h.2.1]
        simp

/-- Claim C10: a reserve call in which every entry locks immediately
(no contention or allocation-failure events and no duplicate buffers)
succeeds and leaves the validate list's membership and order unchanged
and the duplicates list untouched — entries move to the head only on
the contention-recovery path and leave the list only as reported
duplicates. -/
theorem reserve_no_contention_preserves_list (ht i : Bool) (l : List VB) (st : TtmState)
    (dups : Option (List VB)) (fuel : Nat)
    (hnd : (l.map VB.bo).Nodup)
    (hun : ∀ b, b ∈ l.map VB.bo → (st.resv b).lockedSelf = false)
    (hf : l.length < fuel) :
    (ttm_eu_reserve_buffers fuel ht i st ⟨[], [], []⟩ l dups).isOk = true ∧
    (ttm_eu_reserve_buffers fuel ht i st ⟨[], [], []⟩ l dups).listOut = l ∧
    (ttm_eu_reserve_buffers fuel ht i st ⟨[], [], []⟩ l dups).dupsOut = dups := by
  cases l with
  | nil => exact ⟨rfl, rfl, rfl⟩
  | cons e t =>
    rw [reserve_buffers_cons]
    have hresv : ∀ b, ((if ht then ww_acquire_init st else st).resv b) = st.resv b := by
      intro b
      cases ht <;> rfl
    have h := reserveLoop_clean ht i (e :: t) fuel (if ht then ww_acquire_init st else st)
      [] dups hnd (fun b hb => by rw [hresv]; exact hun b hb) hf
    exact ⟨h.1, by rw [h.2.1]; simp, h.2.2⟩

/-- Witness for C10 at a concrete input. -/
theorem reserve_no_contention_preserves_list_witness :
    (ttm_eu_reserve_buffers 3 true false st0 ⟨[], [], []⟩
        [VB.mk 0 1, VB.mk 1 0] (some [])).isOk = true ∧
    (ttm_eu_reserve_buffers 3 true false st0 ⟨[], [], []⟩
        [VB.mk 0 1, VB.mk 1 0] (some [])).listOut = [VB.mk 0 1, VB.mk 1 0] ∧
    (ttm_eu_reserve_buffers 3 true false st0 ⟨[], [], []⟩
        [VB.mk 0 1, VB.mk 1 0] (some [])).dupsOut = some [] :=
  reserve_no_contention_preserves_list true false [VB.mk 0 1, VB.mk 1 0] st0 (some []) 3
    (by decide) (fun b _ => rfl) (by decide)

theorem mapIntr_ne (ret : Errno) :
    (if ret = Errno.EINTR then Errno.ERESTARTSYS else ret) ≠ Errno.EINTR := by
  by_cases h : ret = Errno.EINTR <;> simp [h]

theorem safeRes_of_errno_none (r : RRes) (h : r.errno = none) : SafeRes r := by
  constructor
  · rw [h]
    simp
  · intro habs
    rw [h] at habs
    cases habs

theorem safeRes_err_fini (er2 : Errno) (stT : TtmState) (l : List VB) (d : Option (List VB))
    (hT : ∀ b, (stT.resv b).lockedSelf = false) :
    SafeRes (RRes.err (if er2 = Errno.EINTR then Errno.ERESTARTSYS else er2)
      (ww_acquire_fini stT) l d) := by
  constructor
  · simp only [errno_err, Ne, Option.some.injEq]
    exact fun h => mapIntr_ne er2 h
  · intro _
    exact ⟨fun b => by rw [stateOut_err, fini_resv]; exact hT b, rfl⟩

theorem safeRes_err_notRestart (er : Errno) (stT : TtmState) (l : List VB) (d : Option (List VB))
    (h1 : er ≠ Errno.EINTR) (h2 : er ≠ Errno.ERESTARTSYS) :
    SafeRes (RRes.err er stT l d) := by
  constructor
  · simp [h1]
  · intro habs
    rw [errno_err] at habs
    exact absurd (Option.some.inj habs) h2

theorem reserve_shared_ok (b n : Nat) (st : TtmState) (o : Oracle)
    (hev : o.slots.headD SlotEv.ok = SlotEv.ok) :
    dma_resv_reserve_shared b n st o
      = (none, addSlots b n st, { o with slots := o.slots.tail }) := by
  unfold dma_resv_reserve_shared popSlot
  rw [hev]

theorem reserve_shared_nomem (b n : Nat) (st : TtmState) (o : Oracle)
    (hev : o.slots.headD SlotEv.ok = SlotEv.nomem) :
    dma_resv_reserve_shared b n st o
      = (some Errno.ENOMEM, st, { o with slots := o.slots.tail }) := by
  unfold dma_resv_reserve_shared popSlot
  rw [hev]

theorem lock_slow_intr_ok (b : Nat) (st : TtmState) (o : Oracle)
    (hev : o.slows.headD SlowEv.ok = SlowEv.ok) :
    dma_resv_lock_slow_interruptible b st o
      = (none, lockBo b st, { o with slows := o.slows.tail }) := by
  unfold dma_resv_lock_slow_interruptible popSlow
  rw [hev]

theorem lock_slow_intr_intr (b : Nat) (st : TtmState) (o : Oracle)
    (hev : o.slows.headD SlowEv.ok = SlowEv.intr) :
    dma_resv_lock_slow_interruptible b st o
      = (some Errno.EINTR, st, { o with slows := o.slows.tail }) := by
  unfold dma_resv_lock_slow_interruptible popSlow
  rw [hev]

theorem ttm_bo_reserve_intr_nointr (b : Nat) (st : TtmState) (o : Oracle)
    (hL : (st.resv b).lockedSelf = false) (hev : o.locks.headD LockEv.ok = LockEv.intr) :
    ttm_bo_reserve true false b st o = (none, lockBo b st, { o with locks := o.locks.tail }) := by
  unfold ttm_bo_reserve
  rw [hL]
  have hp : popLock o = (LockEv.intr, { o with locks := o.locks.tail }) := by
    unfold popLock
    rw [hev]
  rw [hp]
  simp

theorem reserveRecover_deadlk_slowintr (done : List VB) (e : VB) (rest : List VB)
    (d : Option (List VB)) (st : TtmState) (o : Oracle)
    (hslow : o.slows.headD SlowEv.ok = SlowEv.intr) :
    reserveRecover true true done e rest d Errno.EDEADLK st o
      = Sum.inr (RRes.err Errno.ERESTARTSYS
          (ww_acquire_fini (ttm_eu_backoff_reservation_reverse done st))
          (done ++ e :: rest) d) := by
  unfold reserveRecover reserveFailTail
  simp [lock_slow_intr_intr _ _ _ hslow]

theorem reserveFailTail_cases (i : Bool) (done : List VB) (e : VB) (ret : Errno)
    (st : TtmState) (o : Oracle) :
    (∃ o2, reserveFailTail i done e ret st o
        = (none, lockBo e.bo (ttm_eu_backoff_reservation_reverse done st), o2)) ∨
    (∃ o2, reserveFailTail i done e ret st o
        = (none, addSlots e.bo e.num_shared
            (lockBo e.bo (ttm_eu_backoff_reservation_reverse done st)), o2)) ∨
    (∃ o2, reserveFailTail i done e ret st o
        = (some Errno.ENOMEM,
            lockBo e.bo (ttm_eu_backoff_reservation_reverse done st), o2)) ∨
    (∃ er2 o2, reserveFailTail i done e ret st o
        = (some er2, ttm_eu_backoff_reservation_reverse done st, o2)) := by
  by_cases hd : ret = Errno.EDEADLK
  · subst hd
    cases i with
    | false =>
      by_cases hsh : e.num_shared = 0
      · refine Or.inl ⟨o, ?_⟩
        unfold reserveFailTail dma_resv_lock_slow
        simp [hsh]
      · cases hslot : o.slots.headD SlotEv.ok with
        | ok =>
          refine Or.inr (Or.inl ⟨{ o with slots := o.slots.tail }, ?_⟩)
          unfold reserveFailTail dma_resv_lock_slow
          simp [hsh, reserve_shared_ok e.bo e.num_shared
            (lockBo e.bo (ttm_eu_backoff_reservation_reverse done st)) o hslot]
        | nomem =>
          refine Or.inr (Or.inr (Or.inl ⟨{ o with slots := o.slots.tail }, ?_⟩))
          unfold reserveFailTail dma_resv_lock_slow
          simp [hsh, reserve_shared_nomem e.bo e.num_shared
            (lockBo e.bo (ttm_eu_backoff_reservation_reverse done st)) o hslot]
    | true =>
      cases hslow : o.slows.headD SlowEv.ok with
      | intr =>
        refine Or.inr (Or.inr (Or.inr ⟨Errno.EINTR, { o with slows := o.slows.tail }, ?_⟩))
        unfold reserveFailTail
        simp [lock_slow_intr_intr e.bo (ttm_eu_backoff_reservation_reverse done st) o hslow]
      | ok =>
        by_cases hsh : e.num_shared = 0
        · refine Or.inl ⟨{ o with slows := o.slows.tail }, ?_⟩
          unfold reserveFailTail
          simp [hsh, lock_slow_intr_ok e.bo (ttm_eu_backoff_reservation_reverse done st) o hslow]
        · cases hslot : o.slots.headD SlotEv.ok with
          | ok =>
            refine Or.inr (Or.inl ⟨⟨o.locks, o.slots.tail, o.slows.tail⟩, ?_⟩)
            unfold reserveFailTail
            simp [hsh, lock_slow_intr_ok e.bo (ttm_eu_backoff_reservation_reverse done st) o hslow,
              reserve_shared_ok e.bo e.num_shared
                (lockBo e.bo (ttm_eu_backoff_reservation_reverse done st))
                { o with slows := o.slows.tail } hslot]
          | nomem =>
            refine Or.inr (Or.inr (Or.inl ⟨⟨o.locks, o.slots.tail, o.slows.tail⟩, ?_⟩))
            unfold reserveFailTail
            simp [hsh, lock_slow_intr_ok e.bo (ttm_eu_backoff_reservation_reverse done st) o hslow,
              reserve_shared_nomem e.bo e.num_shared
                (lockBo e.bo (ttm_eu_backoff_reservation_reverse done st))
                { o with slows := o.slows.tail } hslot]
  · refine Or.inr (Or.inr (Or.inr ⟨ret, o, ?_⟩))
    unfold reserveFailTail
    simp [hd]

theorem recover_dispatch_safe (i : Bool) (n : Nat) (done : List VB) (e : VB) (rest : List VB)
    (dups : Option (List VB)) (ret : Errno) (st : TtmState) (o : Oracle)
    (hinv : ∀ b, (st.resv b).lockedSelf = true → b ∈ done.map VB.bo)
    (hih : ∀ (st2 : TtmState) (o2 : Oracle),
        (∀ b, (st2.resv b).lockedSelf = true → b ∈ [e].map VB.bo) →
        SafeRes (reserveLoop true i n st2 o2 [e] (done ++ rest) dups)) :
    SafeRes (match reserveRecover true i done e rest dups ret st o with
      | Sum.inl (st2, o2) => reserveLoop true i n st2 o2 [e] (done ++ rest) dups
      | Sum.inr r => r) := by
  have hall := backoffRev_unlocks_all done st hinv
  have hlockinv : ∀ b,
      ((lockBo e.bo (ttm_eu_backoff_reservation_reverse done st)).resv b).lockedSelf = true →
      b ∈ [e].map VB.bo := by
    intro b hb
    by_cases hbe : b = e.bo
    · simp [hbe]
    · rw [lockBo_resv, if_neg hbe, hall b] at hb
      cases hb
  have haddinv : ∀ b,
      ((addSlots e.bo e.num_shared
        (lockBo e.bo (ttm_eu_backoff_reservation_reverse done st))).resv b).lockedSelf = true →
      b ∈ [e].map VB.bo := by
    intro b hb
    by_cases hbe : b = e.bo
    · simp [hbe]
    · rw [addSlots_resv, if_neg hbe] at hb
      exact hlockinv b hb
  unfold reserveRecover
  rcases reserveFailTail_cases i done e ret st o with ⟨o2, hft⟩ | ⟨o2, hft⟩ | ⟨o2, hft⟩
    | ⟨er2, o2, hft⟩
  · rw [hft]
    exact hih _ o2 hlockinv
  · rw [hft]
    exact hih _ o2 haddinv
  · rw [hft]
    refine ⟨by simp, ?_⟩
    intro habs
    simp at habs
  · rw [hft]
    dsimp only
    constructor
    · simp only [errno_err, Ne, Option.some.injEq]
      exact fun h => mapIntr_ne er2 h
    · intro _
      refine ⟨fun b => ?_, by simp⟩
      rw [stateOut_err]
      simpa using hall b

theorem reserveLoop_safe (i : Bool) :
    ∀ (fuel : Nat) (st : TtmState) (o : Oracle) (done todo : List VB)
      (dups : Option (List VB)),
    (∀ b, (st.resv b).lockedSelf = true → b ∈ done.map VB.bo) →
    SafeRes (reserveLoop true i fuel st o done todo dups) := by
  intro fuel
  induction fuel with
  | zero =>
    intro st o done todo dups _
    rw [reserveLoop_zero]
    exact safeRes_of_errno_none _ rfl
  | succ n ih =>
    intro st o done todo dups hinv
    cases todo with
    | nil =>
      rw [reserveLoop_nil]
      exact safeRes_of_errno_none _ rfl
    | cons e rest =>
      rw [reserveLoop_succ]
      have hdisp : ∀ (ret : Errno) (stX : TtmState) (oX : Oracle),
          (∀ b, (stX.resv b).lockedSelf = true → b ∈ done.map VB.bo) →
          SafeRes (match reserveRecover true i done e rest dups ret stX oX with
            | Sum.inl (st2, o2) => reserveLoop true i n st2 o2 [e] (done ++ rest) dups
            | Sum.inr r => r) := by
        intro ret stX oX hinvX
        exact recover_dispatch_safe i n done e rest dups ret stX oX hinvX
          (fun st2 o2 hinv2 => ih st2 o2 [e] (done ++ rest) dups hinv2)
      by_cases hL : (st.resv e.bo).lockedSelf = true
      · rw [ttm_bo_reserve_already i e.bo st o hL]
        dsimp only
        cases dups with
        | some d =>
          dsimp only
          exact ih st o done rest (some (e :: d)) hinv
        | none =>
          dsimp only
          exact hdisp Errno.EALREADY st o hinv
      · have hL2 : (st.resv e.bo).lockedSelf = false := by
          cases h : (st.resv e.bo).lockedSelf
          · rfl
          · exact absurd h hL
        have hinv2 : ∀ b, ((lockBo e.bo st).resv b).lockedSelf = true →
            b ∈ (done ++ [e]).map VB.bo := by
          intro b hb
          by_cases hbe : b = e.bo
          · simp [hbe]
          · rw [lockBo_resv, if_neg hbe] at hb
            simp [hinv b hb]
        have hfree : ∀ (oX : Oracle),
            SafeRes (if e.num_shared = 0 then
                reserveLoop true i n (lockBo e.bo st) oX (done ++ [e]) rest dups
              else
                match dma_resv_reserve_shared e.bo e.num_shared (lockBo e.bo st) oX with
                | (none, st1, o1) => reserveLoop true i n st1 o1 (done ++ [e]) rest dups
                | (some er, st1, o1) =>
                  match reserveRecover true i done e rest dups er st1 o1 with
                  | Sum.inl (st2, o2) => reserveLoop true i n st2 o2 [e] (done ++ rest) dups
                  | Sum.inr r => r) := by
          intro oX
          by_cases hsh : e.num_shared = 0
          · rw [if_pos hsh]
            exact ih (lockBo e.bo st) oX (done ++ [e]) rest dups hinv2
          · rw [if_neg hsh]
            cases hslot : oX.slots.headD SlotEv.ok with
            | ok =>
              rw [reserve_shared_ok _ _ _ _ hslot]
              dsimp only
              have hinv3 : ∀ b,
                  ((addSlots e.bo e.num_shared (lockBo e.bo st)).resv b).lockedSelf = true →
                  b ∈ (done ++ [e]).map VB.bo := by
                intro b hb
                by_cases hbe : b = e.bo
                · simp [hbe]
                · rw [addSlots_resv, if_neg hbe] at hb
                  exact hinv2 b hb
              exact ih _ _ (done ++ [e]) rest dups hinv3
            | nomem =>
              rw [reserve_shared_nomem _ _ _ _ hslot]
              dsimp only
              rw [reserveRecover_terminal _ _ _ _ _ _ _ _ _ (by decide)]
              dsimp only
              refine ⟨by simp, ?v⟩
              intro habs
              simp at habs
        cases hev : o.locks.headD LockEv.ok with
        | ok =>
          rw [ttm_bo_reserve_free true i e.bo st o hL2 hev]
          dsimp only
          exact hfree _
        | wound =>
          rw [ttm_bo_reserve_wound i e.bo st o hL2 hev]
          dsimp only
          exact hdisp Errno.EDEADLK st { o with locks := o.locks.tail } hinv
        | intr =>
          cases i with
          | false =>
            rw [ttm_bo_reserve_intr_nointr e.bo st o hL2 hev]
            dsimp only
            exact hfree _
          | true =>
            rw [ttm_bo_reserve_intr e.bo st o hL2 hev]
            dsimp only
            exact hdisp Errno.EINTR st { o with locks := o.locks.tail } hinv

/-- Claim C6: for a ticketed reserve starting with no lock held by the
batch, the raw interrupted-wait code `-EINTR` never escapes (it is
always mapped to `-ERESTARTSYS`); whenever reserve returns
`-ERESTARTSYS` — the distinct operation-cancelled outcome — every
buffer is unlocked in the final state and the ticket has been torn
down before the error is returned; and a cancellation signal during
the priority-aware slow wait does surface as `-ERESTARTSYS`. -/
theorem reserve_cancelled_fully_unwound (i : Bool) (fuel : Nat) (st : TtmState) (o : Oracle)
    (l : List VB) (d0 : Option (List VB))
    (h0 : ∀ b, (st.resv b).lockedSelf = false) :
    ((ttm_eu_reserve_buffers fuel true i st o l d0).errno ≠ some Errno.EINTR) ∧
    ((ttm_eu_reserve_buffers fuel true i st o l d0).errno = some Errno.ERESTARTSYS →
      (∀ b, (((ttm_eu_reserve_buffers fuel true i st o l d0).stateOut).resv b).lockedSelf
          = false) ∧
      ((ttm_eu_reserve_buffers fuel true i st o l d0).stateOut).ticketLive = false) ∧
    (∀ (st3 : TtmState) (o3 : Oracle) (done3 : List VB) (e3 : VB) (rest3 : List VB)
        (d3 : Option (List VB)) (n : Nat),
        (st3.resv e3.bo).lockedSelf = false →
        o3.locks.headD LockEv.ok = LockEv.wound →
        o3.slows.headD SlowEv.ok = SlowEv.intr →
        (reserveLoop true true (n + 1) st3 o3 done3 (e3 :: rest3) d3).errno
          = some Errno.ERESTARTSYS) := by
  have hs : SafeRes (ttm_eu_reserve_buffers fuel true i st o l d0) := by
    unfold ttm_eu_reserve_buffers
    by_cases hl : l = []
    · rw [if_pos hl]
      exact safeRes_of_errno_none _ rfl
    · rw [if_neg hl]
      exact reserveLoop_safe i fuel (ww_acquire_init st) o [] l d0
        (fun b hb => by rw [init_resv, h0 b] at hb; cases hb)
  refine ⟨hs.1, hs.2, ?m3⟩
  intro st3 o3 done3 e3 rest3 d3 n h3 hev hslow
  rw [reserveLoop_succ]
  rw [ttm_bo_reserve_wound true e3.bo st3 o3 h3 hev]
  dsimp only
  rw [reserveRecover_deadlk_slowintr done3 e3 rest3 d3 st3
    { o3 with locks := o3.locks.tail } hslow]
  rfl

/-- Witness for C6 at a concrete input: a cancellable single-entry
batch whose slow wait is interrupted. -/
theorem reserve_cancelled_fully_unwound_witness :
    (ttm_eu_reserve_buffers 5 true true st0 ⟨[LockEv.wound], [], [SlowEv.intr]⟩
        [VB.mk 5 0] none).errno = some Errno.ERESTARTSYS ∧
    (((ttm_eu_reserve_buffers 5 true true st0 ⟨[LockEv.wound], [], [SlowEv.intr]⟩
        [VB.mk 5 0] none).stateOut).resv 5).lockedSelf = false ∧
    ((ttm_eu_reserve_buffers 5 true true st0 ⟨[LockEv.wound], [], [SlowEv.intr]⟩
        [VB.mk 5 0] none).stateOut).ticketLive = false := by
  have h := reserve_cancelled_fully_unwound true 5 st0 ⟨[LockEv.wound], [], [SlowEv.intr]⟩
    [VB.mk 5 0] none (fun b => rfl)
  refine ⟨by decide, (h.2.1 (by decide)).1 5, (h.2.1 (by decide)).2⟩

end TtmEu
